import Mathlib

/-!
Verification of the FamilyLedger transaction store
(`src/src-tauri/src/main.rs`).

The store is a two-operation persistence layer: `save_transactions`
serializes a list of `Transaction` records to a pretty-printed JSON file
`transactions.json` in the host-supplied application data directory, and
`load_transactions` reads it back, returning the empty list when the file
does not exist.

The shallow embedding models the effectful environment explicitly as a
`World` value: the host's answer for the app data directory, failure
switches for directory creation, file write and file read (standing for
permission / disk errors of the OS), the set of existing directories and
the file-system contents.  File contents are modelled at the granularity
of the JSON document: `serde_json::to_string_pretty` prints an `f64` with
a shortest decimal representation that parses back to the identical bit
pattern, so a document written by the program and read back carries every
number exactly; a file may also hold `malformed` text that is not valid
JSON (hand-edited or corrupted content).
-/

namespace FamilyLedger

/-- An IEEE-754 binary64 value, represented by its 64-bit pattern.
The store performs no arithmetic on amounts: it only carries them through
serialization, and `serde_json` round-trips every `f64` exactly, so the
bit pattern is all that the embedding needs. -/
structure F64 where
  bits : Nat
deriving DecidableEq, Repr

/-- Whether the value is finite: an IEEE-754 binary64 value is non-finite
(infinite or NaN) exactly when its 11 exponent bits are all ones. -/
def F64.isFinite (x : F64) : Bool :=
  (x.bits / 2 ^ 52) % 2 ^ 11 ≠ 2 ^ 11 - 1

/-- The `Transaction` struct of `main.rs` (lines 10-20): eight fields,
seven strings and one 64-bit float. -/
structure Transaction where
  id : String
  description : String
  amount : F64
  transaction_type : String
  category : String
  account : String
  month : String
  date : String
deriving DecidableEq, Repr

/-- A JSON document, the image of `serde_json` serialization. -/
inductive Json where
  | null : Json
  | bool (b : Bool) : Json
  | num (x : F64) : Json
  | str (s : String) : Json
  | arr (elems : List Json) : Json
  | obj (fields : List (String × Json)) : Json

/-- The text of one JSON file: the document it denotes plus whether it was
printed in the pretty (indented, human-readable) style.  Two texts printed
by the same serializer agree exactly when their documents and styles do. -/
structure JsonText where
  pretty : Bool
  doc : Json

/-- Content of a file on disk: either text that is a valid JSON
serialization, or malformed text that no JSON parser accepts. -/
inductive FileContent where
  | jsonText (t : JsonText) : FileContent
  | malformed (s : String) : FileContent

/-- A path, as its list of components. -/
abbrev FsPath := List String

/-- The explicit state of the outside world that the two Tauri commands
interact with. -/
@[ext]
structure World where
  /-- The result of `app_handle.path_resolver().app_data_dir()`: the host-supplied
  application data directory, or `none` when the host cannot supply one. -/
  appDataDir : Option FsPath
  /-- When true, `fs::create_dir_all` fails (permissions, disk full,
  collision with a non-directory file). -/
  dirCreateFails : Bool
  /-- When true, `fs::write` fails (disk full, permission denied). -/
  writeFails : Bool
  /-- When true, `fs::read_to_string` fails (permissions, device error). -/
  readFails : Bool
  /-- The directories that exist. -/
  dirs : List FsPath
  /-- The files that exist, as an association list from path to content. -/
  files : List (FsPath × FileContent)

/-- Add a directory to the set of existing directories. -/
def insertDir (dirs : List FsPath) (p : FsPath) : List FsPath :=
  if p ∈ dirs then dirs else p :: dirs

/-- Models `fs::create_dir_all`: creates the directory and every missing
ancestor (modelled as every component-list preceding `d`), or fails when
the world's directory-creation switch is set. -/
def create_dir_all (d : FsPath) (w : World) : Except String World :=
  if w.dirCreateFails then
    .error "Permission denied (os error 13)"
  else
    .ok { w with dirs := d.inits.foldl insertDir w.dirs }

/-- Look a path up in the file table (first match). -/
def findFile (files : List (FsPath × FileContent)) (p : FsPath) :
    Option FileContent :=
  match files with
  | [] => none
  | (q, c) :: rest => if q = p then some c else findFile rest p

/-- Store content at a path, fully replacing any previous entry. -/
def setFile (files : List (FsPath × FileContent)) (p : FsPath)
    (c : FileContent) : List (FsPath × FileContent) :=
  (p, c) :: files.filter (fun e => decide (e.1 ≠ p))

/-- Models `fs::write`: replaces the file's content in its entirety, or fails
when the world's write switch is set. -/
def fs_write (p : FsPath) (text : JsonText) (w : World) :
    Except String World :=
  if w.writeFails then
    .error "No space left on device (os error 28)"
  else
    .ok { w with files := setFile w.files p (FileContent.jsonText text) }

/-- The outcome of `get_data_file_path` when it fails: either the host
supplied no app data directory, or directory creation failed. -/
inductive PathError where
  | noAppDataDir : PathError
  | createDirFailed (msg : String) : PathError

/-- Embedding of `get_data_file_path` (`main.rs` lines 22-29): asks the host for the
app data directory, ensures it exists via `create_dir_all`, and joins
`"transactions.json"` onto it. -/
def get_data_file_path (w : World) : Except PathError (FsPath × World) :=
  match w.appDataDir with
  | none => .error PathError.noAppDataDir
  | some app_data_dir =>
    match create_dir_all app_data_dir w with
    | .error m => .error (PathError.createDirFailed m)
    | .ok w' => .ok (app_data_dir ++ ["transactions.json"], w')

/-- The error categories a command can return.  The Rust code returns a
`String`; each constructor corresponds to one `map_err` site in
`main.rs` (so the category is recoverable from the message prefix), and
carries the formatted message. -/
inductive StoreError where
  | pathResolution (msg : String) : StoreError
  | dirCreation (msg : String) : StoreError
  | serialization (msg : String) : StoreError
  | writeFailed (msg : String) : StoreError
  | readFailed (msg : String) : StoreError
  | deserialization (msg : String) : StoreError
deriving DecidableEq, Repr

/-- The `map_err` at `main.rs` lines 37 and 51: wraps a failure of
`get_data_file_path` in the message
`"Failed to get data file path: {}"`, keeping its category. -/
def mapGetPathErr : PathError → StoreError
  | PathError.noAppDataDir =>
      StoreError.pathResolution
        "Failed to get data file path: Failed to get app data directory"
  | PathError.createDirFailed m =>
      StoreError.dirCreation ("Failed to get data file path: " ++ m)

/-- The derived `Serialize` for `Transaction`: a JSON object with the
eight fields, by name, in declaration order.  `serde_json`'s
`serialize_f64` writes JSON `null` for a non-finite `f64` (NaN or
±Infinity), so the amount field's value is a number only for finite
amounts. -/
def encodeTransaction (t : Transaction) : Json :=
  Json.obj
    [ ("id", Json.str t.id),
      ("description", Json.str t.description),
      ("amount", if t.amount.isFinite then Json.num t.amount else Json.null),
      ("transaction_type", Json.str t.transaction_type),
      ("category", Json.str t.category),
      ("account", Json.str t.account),
      ("month", Json.str t.month),
      ("date", Json.str t.date) ]

/-- Models `serde_json::to_string_pretty` on a document: prints it in the
indented style.  For `serde_json` documents this printing step is
infallible (the `Result` in its signature only fails for fallible
`Serialize` impls, which a struct of strings and an `f64` does not have). -/
def to_string_pretty (j : Json) : Except String JsonText :=
  .ok { pretty := true, doc := j }

/-- Serialization of the full `Vec<Transaction>` argument:
`serde_json::to_string_pretty(&transactions)`. -/
def serialize_transactions (ts : List Transaction) : Except String JsonText :=
  to_string_pretty (Json.arr (ts.map encodeTransaction))

/-- Field lookup inside a JSON object (first occurrence). -/
def jsonLookup (fields : List (String × Json)) (key : String) : Option Json :=
  match fields with
  | [] => none
  | (k, v) :: rest => if k = key then some v else jsonLookup rest key

/-- The partially-filled field slots of the derived `Deserialize`'s map
visitor: one `Option` per field, all starting out empty. -/
structure PartialTransaction where
  id? : Option String := none
  description? : Option String := none
  amount? : Option F64 := none
  transaction_type? : Option String := none
  category? : Option String := none
  account? : Option String := none
  month? : Option String := none
  date? : Option String := none

/-- One step of the derived map visitor on the entry `(k, v)`: a known
key whose slot is already filled is a `duplicate field` error, a known
key with a wrongly-typed value is an `invalid type` error, an unknown
key is silently ignored (serde's default, no `deny_unknown_fields`). -/
def visitField (acc : PartialTransaction) (k : String) (v : Json) :
    Except String PartialTransaction :=
  if k = "id" then
    match acc.id?, v with
    | some _, _ => .error "duplicate field id"
    | none, Json.str s => .ok { acc with id? := some s }
    | none, _ => .error "invalid type for field id"
  else if k = "description" then
    match acc.description?, v with
    | some _, _ => .error "duplicate field description"
    | none, Json.str s => .ok { acc with description? := some s }
    | none, _ => .error "invalid type for field description"
  else if k = "amount" then
    match acc.amount?, v with
    | some _, _ => .error "duplicate field amount"
    | none, Json.num x => .ok { acc with amount? := some x }
    | none, _ => .error "invalid type for field amount"
  else if k = "transaction_type" then
    match acc.transaction_type?, v with
    | some _, _ => .error "duplicate field transaction_type"
    | none, Json.str s => .ok { acc with transaction_type? := some s }
    | none, _ => .error "invalid type for field transaction_type"
  else if k = "category" then
    match acc.category?, v with
    | some _, _ => .error "duplicate field category"
    | none, Json.str s => .ok { acc with category? := some s }
    | none, _ => .error "invalid type for field category"
  else if k = "account" then
    match acc.account?, v with
    | some _, _ => .error "duplicate field account"
    | none, Json.str s => .ok { acc with account? := some s }
    | none, _ => .error "invalid type for field account"
  else if k = "month" then
    match acc.month?, v with
    | some _, _ => .error "duplicate field month"
    | none, Json.str s => .ok { acc with month? := some s }
    | none, _ => .error "invalid type for field month"
  else if k = "date" then
    match acc.date?, v with
    | some _, _ => .error "duplicate field date"
    | none, Json.str s => .ok { acc with date? := some s }
    | none, _ => .error "invalid type for field date"
  else
    .ok acc

/-- End of the map visitor: each still-empty slot is a `missing field`
error, reported in declaration order. -/
def finishFields (acc : PartialTransaction) : Except String Transaction :=
  match acc.id? with
  | none => .error "missing field id"
  | some id =>
  match acc.description? with
  | none => .error "missing field description"
  | some description =>
  match acc.amount? with
  | none => .error "missing field amount"
  | some amount =>
  match acc.transaction_type? with
  | none => .error "missing field transaction_type"
  | some transaction_type =>
  match acc.category? with
  | none => .error "missing field category"
  | some category =>
  match acc.account? with
  | none => .error "missing field account"
  | some account =>
  match acc.month? with
  | none => .error "missing field month"
  | some month =>
  match acc.date? with
  | none => .error "missing field date"
  | some date =>
    .ok { id, description, amount, transaction_type,
          category, account, month, date }

/-- The derived map visitor over an object's entries in order. -/
def readFields (fields : List (String × Json))
    (acc : PartialTransaction) : Except String Transaction :=
  match fields with
  | [] => finishFields acc
  | (k, v) :: rest =>
    match visitField acc k v with
    | .error e => .error e
    | .ok acc' => readFields rest acc'

/-- The derived `Deserialize` for `Transaction`.  `serde_json`'s
`deserialize_struct` accepts either a JSON object (driving the map
visitor above) or a JSON array (driving the derived `visit_seq`, which
reads the eight field values positionally in declaration order and
rejects any other length); everything else is a type error. -/
def decodeTransaction (j : Json) : Except String Transaction :=
  match j with
  | Json.obj fields => readFields fields {}
  | Json.arr elems =>
    match elems with
    | [Json.str id, Json.str description, Json.num amount,
       Json.str transaction_type, Json.str category, Json.str account,
       Json.str month, Json.str date] =>
        .ok { id, description, amount, transaction_type,
              category, account, month, date }
    | _ => .error "invalid positional encoding of struct Transaction"
  | _ => .error "invalid type: expected struct Transaction"

/-- Deserialize each element of a JSON array in order; the first failing
element fails the whole deserialization, so no partial list escapes. -/
def decodeList (elems : List Json) : Except String (List Transaction) :=
  match elems with
  | [] => .ok []
  | j :: rest =>
    match decodeTransaction j with
    | .error e => .error e
    | .ok t =>
      match decodeList rest with
      | .error e => .error e
      | .ok ts => .ok (t :: ts)

/-- The derived `Deserialize` for `Vec<Transaction>`. -/
def decodeTransactions (j : Json) : Except String (List Transaction) :=
  match j with
  | Json.arr elems => decodeList elems
  | _ => .error "invalid type: expected a JSON array"

/-- Models `serde_json::from_str::<Vec<Transaction>>` on the text read from the
file: malformed text is a syntax error; valid JSON text is decoded by
shape. -/
def from_str (c : FileContent) : Except String (List Transaction) :=
  match c with
  | FileContent.jsonText t => decodeTransactions t.doc
  | FileContent.malformed _ => .error "expected value at line 1 column 1"

/-- Embedding of `save_transactions` (`main.rs` lines 31-46): resolve the data file
path, serialize the records pretty-printed, and write the file, mapping
each failure to its message.  Returns the updated world on success. -/
def save_transactions (w : World) (transactions : List Transaction) :
    Except StoreError World :=
  match get_data_file_path w with
  | .error e => .error (mapGetPathErr e)
  | .ok (file_path, w1) =>
    match serialize_transactions transactions with
    | .error e =>
        .error (StoreError.serialization
          ("Failed to serialize transactions: " ++ e))
    | .ok json_data =>
      match fs_write file_path json_data w1 with
      | .error e =>
          .error (StoreError.writeFailed
            ("Failed to write transactions file: " ++ e))
      | .ok w2 => .ok w2

/-- Embedding of `load_transactions` (`main.rs` lines 48-64): resolve the data file
path; if the file does not exist return the empty list; otherwise read it
(may fail) and parse it (may fail).  Returns the records together with
the updated world. -/
def load_transactions (w : World) :
    Except StoreError (List Transaction × World) :=
  match get_data_file_path w with
  | .error e => .error (mapGetPathErr e)
  | .ok (file_path, w1) =>
    match findFile w1.files file_path with
    | none => .ok ([], w1)
    | some text =>
      if w1.readFails then
        .error (StoreError.readFailed
          "Failed to read transactions file: Permission denied (os error 13)")
      else
        match from_str text with
        | .error e =>
            .error (StoreError.deserialization
              ("Failed to parse transactions: " ++ e))
        | .ok transactions => .ok (transactions, w1)

/-! ### Helper characterizations -/

/-- The world after a successful `get_data_file_path` on data directory
`d`: identical except that `d` and all its ancestors now exist. -/
def resolvedWorld (w : World) (d : FsPath) : World :=
  { w with dirs := d.inits.foldl insertDir w.dirs }

/-- The world after a successful `save_transactions` of `ts` with data
directory `d`. -/
def savedWorld (w : World) (d : FsPath) (ts : List Transaction) : World :=
  { w with
    dirs := d.inits.foldl insertDir w.dirs,
    files := setFile w.files (d ++ ["transactions.json"])
      (FileContent.jsonText
        { pretty := true, doc := Json.arr (ts.map encodeTransaction) }) }

/-- The names of a JSON object's fields, in order. -/
def fieldNames : Json → List String
  | Json.obj fs => fs.map Prod.fst
  | _ => []

/-- Holds exactly when a command result is a failed result whose error is
a `DeserializationError` (the `map_err` at `main.rs` line 61). -/
def isDeserializationFailure
    (r : Except StoreError (List Transaction × World)) : Prop :=
  match r with
  | .error (StoreError.deserialization _) => True
  | _ => False

/-! ### Concrete sample values -/

/-- The bit pattern of the IEEE-754 binary64 value `-4.50`. -/
def negFourPointFive : F64 := ⟨0xC012000000000000⟩

/-- The bit pattern of the IEEE-754 binary64 value `10.0`. -/
def ten : F64 := ⟨0x4024000000000000⟩

/-- The sample record of the spec's scenario example. -/
def tx1 : Transaction :=
  { id := "1", description := "Coffee", amount := negFourPointFive,
    transaction_type := "expense", category := "Food",
    account := "Checking", month := "2024-01", date := "2024-01-15" }

/-- A second sample record. -/
def tx2 : Transaction :=
  { id := "2", description := "Salary", amount := ten,
    transaction_type := "income", category := "Work",
    account := "Checking", month := "2024-01", date := "2024-01-31" }

/-- A fresh first-run world: the host supplies a data directory, nothing
fails, no directory or file exists yet. -/
def w0 : World :=
  { appDataDir := some ["data"], dirCreateFails := false,
    writeFails := false, readFails := false, dirs := [], files := [] }

/-- The world `w0` after `save_transactions` of `[tx1]`. -/
def w0saved : World := savedWorld w0 ["data"] [tx1]

/-- The world `w0` after the directory creation of a path resolve. -/
def rw0 : World := resolvedWorld w0 ["data"]

/-- The world `w0saved` after a second `save_transactions` of `[tx1]`. -/
def w0savedTwice : World := savedWorld w0saved ["data"] [tx1]

/-- The world `w0saved` after `save_transactions` of `[tx2]`. -/
def wB : World := savedWorld w0saved ["data"] [tx2]

/-- A world whose host cannot supply an app data directory. -/
def wNoDir : World := { w0 with appDataDir := none }

/-- A world where directory creation fails. -/
def wBadDir : World := { w0 with dirCreateFails := true }

/-- A world whose stored file holds text that is not valid JSON. -/
def wMal : World :=
  { w0 with files :=
      [(["data", "transactions.json"], FileContent.malformed "not json")] }

/-- Whether a JSON value is an object. -/
def isObj : Json → Bool
  | Json.obj _ => true
  | _ => false

/-- The bit pattern of an IEEE-754 binary64 quiet NaN. -/
def nanF64 : F64 := ⟨0x7FF8000000000000⟩

/-- A record whose amount is the non-finite value NaN. -/
def txNaN : Transaction := { tx1 with id := "3", amount := nanF64 }

/-- The world `w0saved` after `save_transactions` of `[txNaN]`. -/
def wNaNsaved : World := savedWorld w0saved ["data"] [txNaN]

/-- A positional (array-shaped) serialization of `tx1`: the eight field
values in declaration order, with no field names. -/
def positionalRecord : Json :=
  Json.arr
    [ Json.str "1", Json.str "Coffee", Json.num negFourPointFive,
      Json.str "expense", Json.str "Food", Json.str "Checking",
      Json.str "2024-01", Json.str "2024-01-15" ]

/-- A stored document holding one positional record. -/
def positionalDoc : Json := Json.arr [positionalRecord]

/-- A world whose stored file holds the positional document. -/
def wPositional : World :=
  { w0 with files :=
      [(["data", "transactions.json"],
        FileContent.jsonText { pretty := false, doc := positionalDoc })] }

/-- A stored object in which the required field `id` appears twice, both
occurrences well-typed, and every required field is present. -/
def dupFieldsObj : List (String × Json) :=
  [ ("id", Json.str "1"),
    ("id", Json.str "1"),
    ("description", Json.str "Coffee"),
    ("amount", Json.num negFourPointFive),
    ("transaction_type", Json.str "expense"),
    ("category", Json.str "Food"),
    ("account", Json.str "Checking"),
    ("month", Json.str "2024-01"),
    ("date", Json.str "2024-01-15") ]

/-- A stored object carrying the eight required fields plus two unknown
fields, `note` and `tags`. -/
def extraFieldsObj : List (String × Json) :=
  [ ("id", Json.str "1"),
    ("note", Json.str "imported"),
    ("description", Json.str "Coffee"),
    ("amount", Json.num negFourPointFive),
    ("transaction_type", Json.str "expense"),
    ("category", Json.str "Food"),
    ("account", Json.str "Checking"),
    ("month", Json.str "2024-01"),
    ("date", Json.str "2024-01-15"),
    ("tags", Json.arr []) ]

/-! ### Lemmas -/

theorem mem_insertDir_of_mem (init : List FsPath) (p a : FsPath)
    (h : a ∈ init) : a ∈ insertDir init p := by
  rw [insertDir]
  split
  · exact h
  · exact List.mem_cons_of_mem _ h

theorem mem_insertDir_self (init : List FsPath) (p : FsPath) :
    p ∈ insertDir init p := by
  rw [insertDir]
  split
  · assumption
  · exact List.mem_cons_self _ _

theorem mem_foldl_insertDir_of_mem_init (l : List FsPath) :
    ∀ (init : List FsPath) (a : FsPath), a ∈ init →
      a ∈ List.foldl insertDir init l := by
  induction l with
  | nil => exact fun _ _ h => h
  | cons p l ih =>
    intro init a h
    rw [List.foldl_cons]
    exact ih _ _ (mem_insertDir_of_mem _ _ _ h)

theorem mem_foldl_insertDir_of_mem (l : List FsPath) :
    ∀ (init : List FsPath) (a : FsPath), a ∈ l →
      a ∈ List.foldl insertDir init l := by
  induction l with
  | nil => intro _ _ h; cases h
  | cons p l ih =>
    intro init a h
    rw [List.foldl_cons]
    rcases List.mem_cons.mp h with rfl | h
    · exact mem_foldl_insertDir_of_mem_init _ _ _ (mem_insertDir_self _ _)
    · exact ih _ _ h

theorem foldl_insertDir_of_subset (l : List FsPath) :
    ∀ init : List FsPath, (∀ a ∈ l, a ∈ init) →
      List.foldl insertDir init l = init := by
  induction l with
  | nil => intro _ _; rfl
  | cons p l ih =>
    intro init h
    rw [List.foldl_cons, insertDir, if_pos (h p (List.mem_cons_self _ _))]
    exact ih init fun a ha => h a (List.mem_cons_of_mem _ ha)

theorem findFile_setFile_self (files : List (FsPath × FileContent))
    (p : FsPath) (c : FileContent) : findFile (setFile files p c) p = some c := by
  simp [findFile, setFile]

theorem findFile_setFile_ne (files : List (FsPath × FileContent))
    (p q : FsPath) (c : FileContent) (h : q ≠ p) :
    findFile (setFile files p c) q = findFile files q := by
  rw [setFile, findFile, if_neg (fun he => h he.symm)]
  induction files with
  | nil => rfl
  | cons e rest ih =>
    by_cases he : e.1 = p
    · rw [List.filter_cons_of_neg (by simpa using he)]
      rw [ih]
      obtain ⟨q', c'⟩ := e
      rw [findFile, if_neg]
      intro hq
      exact h (hq ▸ he)
    · rw [List.filter_cons_of_pos (by simpa using he)]
      obtain ⟨q', c'⟩ := e
      rw [findFile, findFile]
      split
      · rfl
      · exact ih

theorem setFile_setFile (files : List (FsPath × FileContent)) (p : FsPath)
    (c c' : FileContent) : setFile (setFile files p c) p c' = setFile files p c' := by
  simp [setFile, List.filter_filter]

theorem resolvedWorld_idem (w : World) (d : FsPath) :
    resolvedWorld (resolvedWorld w d) d = resolvedWorld w d := by
  ext1
  all_goals simp only [resolvedWorld]
  exact foldl_insertDir_of_subset _ _
    (fun a ha => mem_foldl_insertDir_of_mem _ _ _ ha)

theorem get_data_file_path_ok (w : World) (d : FsPath)
    (h1 : w.appDataDir = some d) (h2 : w.dirCreateFails = false) :
    get_data_file_path w = .ok (d ++ ["transactions.json"], resolvedWorld w d) := by
  simp [get_data_file_path, create_dir_all, h1, h2, resolvedWorld]

theorem save_transactions_ok (w : World) (ts : List Transaction) (d : FsPath)
    (happ : w.appDataDir = some d) (hc : w.dirCreateFails = false)
    (hw : w.writeFails = false) :
    save_transactions w ts = .ok (savedWorld w d ts) := by
  simp [save_transactions, get_data_file_path, create_dir_all,
    serialize_transactions, to_string_pretty, fs_write, happ, hc, hw,
    savedWorld]

theorem save_transactions_ok_elim (w : World) (ts : List Transaction)
    (w' : World) (h : save_transactions w ts = .ok w') :
    ∃ d, w.appDataDir = some d ∧ w.dirCreateFails = false ∧
      w.writeFails = false ∧ w' = savedWorld w d ts := by
  cases happ : w.appDataDir with
  | none => simp [save_transactions, get_data_file_path, happ] at h
  | some d =>
    cases hc : w.dirCreateFails with
    | true => simp [save_transactions, get_data_file_path, create_dir_all,
        happ, hc] at h
    | false =>
      cases hw : w.writeFails with
      | true => simp [save_transactions, get_data_file_path, create_dir_all,
          serialize_transactions, to_string_pretty, fs_write, happ, hc, hw] at h
      | false =>
        refine ⟨d, rfl, rfl, rfl, ?_⟩
        have h2 := save_transactions_ok w ts d happ hc hw
        rw [h] at h2
        exact Except.ok.inj h2

theorem load_transactions_of_absent (w : World) (d : FsPath)
    (happ : w.appDataDir = some d) (hc : w.dirCreateFails = false)
    (hf : findFile w.files (d ++ ["transactions.json"]) = none) :
    load_transactions w = .ok ([], resolvedWorld w d) := by
  have hfr : findFile (resolvedWorld w d).files
      (d ++ ["transactions.json"]) = none := hf
  simp [load_transactions, get_data_file_path, create_dir_all, happ, hc,
    resolvedWorld] at hfr ⊢
  simp [hfr]

theorem load_transactions_of_present (w : World) (d : FsPath)
    (c : FileContent) (res : List Transaction)
    (happ : w.appDataDir = some d) (hc : w.dirCreateFails = false)
    (hf : findFile w.files (d ++ ["transactions.json"]) = some c)
    (hr : w.readFails = false) (hs : from_str c = .ok res) :
    load_transactions w = .ok (res, resolvedWorld w d) := by
  have hfr : findFile (resolvedWorld w d).files
      (d ++ ["transactions.json"]) = some c := hf
  simp [load_transactions, get_data_file_path, create_dir_all, happ, hc,
    resolvedWorld] at hfr ⊢
  simp [hfr, hr, hs]

theorem load_transactions_of_bad_content (w : World) (d : FsPath)
    (c : FileContent) (e : String)
    (happ : w.appDataDir = some d) (hc : w.dirCreateFails = false)
    (hf : findFile w.files (d ++ ["transactions.json"]) = some c)
    (hr : w.readFails = false) (hs : from_str c = .error e) :
    load_transactions w =
      .error (StoreError.deserialization
        ("Failed to parse transactions: " ++ e)) := by
  have hfr : findFile (resolvedWorld w d).files
      (d ++ ["transactions.json"]) = some c := hf
  simp [load_transactions, get_data_file_path, create_dir_all, happ, hc,
    resolvedWorld] at hfr ⊢
  simp [hfr, hr, hs]

theorem load_transactions_ok_elim (w : World) (res : List Transaction)
    (w1 : World) (h : load_transactions w = .ok (res, w1)) :
    ∃ d, w.appDataDir = some d ∧ w.dirCreateFails = false ∧
      w1 = resolvedWorld w d ∧
      ((findFile w.files (d ++ ["transactions.json"]) = none ∧ res = []) ∨
       (∃ c, findFile w.files (d ++ ["transactions.json"]) = some c ∧
          w.readFails = false ∧ from_str c = .ok res)) := by
  cases happ : w.appDataDir with
  | none => simp [load_transactions, get_data_file_path, happ] at h
  | some d =>
    cases hc : w.dirCreateFails with
    | true => simp [load_transactions, get_data_file_path, create_dir_all,
        happ, hc] at h
    | false =>
      refine ⟨d, rfl, rfl, ?_⟩
      cases hf : findFile w.files (d ++ ["transactions.json"]) with
      | none =>
        rw [load_transactions_of_absent w d happ hc hf] at h
        obtain ⟨h1, h2⟩ := Prod.mk.injEq .. ▸ Except.ok.inj h
        exact ⟨h2.symm, Or.inl ⟨rfl, h1.symm⟩⟩
      | some c =>
        cases hr : w.readFails with
        | true =>
          have hfr : findFile (resolvedWorld w d).files
              (d ++ ["transactions.json"]) = some c := hf
          simp [load_transactions, get_data_file_path, create_dir_all,
            happ, hc, resolvedWorld] at hfr h
          simp [hfr, hr] at h
        | false =>
          cases hs : from_str c with
          | error e =>
            rw [load_transactions_of_bad_content w d c e happ hc hf hr hs] at h
            cases h
          | ok ts =>
            rw [load_transactions_of_present w d c ts happ hc hf hr hs] at h
            obtain ⟨h1, h2⟩ := Prod.mk.injEq .. ▸ Except.ok.inj h
            exact ⟨h2.symm, Or.inr ⟨c, rfl, rfl, h1 ▸ hs⟩⟩

theorem decode_encode_finite (t : Transaction)
    (h : t.amount.isFinite = true) :
    decodeTransaction (encodeTransaction t) = .ok t := by
  unfold encodeTransaction
  rw [if_pos h]
  rfl

theorem decode_encode_nonfinite (t : Transaction)
    (h : t.amount.isFinite = false) :
    decodeTransaction (encodeTransaction t) =
      .error "invalid type for field amount" := by
  unfold encodeTransaction
  rw [if_neg (by simp [h])]
  rfl

theorem decode_encode_inv (t res : Transaction)
    (h : decodeTransaction (encodeTransaction t) = .ok res) : res = t := by
  cases hfin : t.amount.isFinite with
  | true =>
    rw [decode_encode_finite t hfin] at h
    exact (Except.ok.inj h).symm
  | false =>
    rw [decode_encode_nonfinite t hfin] at h
    cases h

theorem decodeList_encode_inv (ts : List Transaction) :
    ∀ res, decodeList (ts.map encodeTransaction) = .ok res → res = ts := by
  induction ts with
  | nil =>
    intro res h
    exact (Except.ok.inj h).symm
  | cons t ts ih =>
    intro res h
    rw [List.map_cons, decodeList] at h
    cases hd : decodeTransaction (encodeTransaction t) with
    | error e => rw [hd] at h; cases h
    | ok t' =>
      rw [hd] at h
      cases hl : decodeList (ts.map encodeTransaction) with
      | error e => rw [hl] at h; cases h
      | ok ts' =>
        rw [hl] at h
        rw [decode_encode_inv t t' hd, ih ts' hl] at h
        exact (Except.ok.inj h).symm

theorem decodeList_map_encode (ts : List Transaction)
    (h : ∀ t ∈ ts, t.amount.isFinite = true) :
    decodeList (ts.map encodeTransaction) = .ok ts := by
  induction ts with
  | nil => rfl
  | cons t ts ih =>
    rw [List.map_cons, decodeList,
      decode_encode_finite t (h t (List.mem_cons_self _ _)),
      ih fun a ha => h a (List.mem_cons_of_mem _ ha)]

theorem from_str_encode (b : Bool) (ts : List Transaction)
    (h : ∀ t ∈ ts, t.amount.isFinite = true) :
    from_str (FileContent.jsonText
      { pretty := b, doc := Json.arr (ts.map encodeTransaction) }) = .ok ts := by
  show decodeList (ts.map encodeTransaction) = .ok ts
  exact decodeList_map_encode ts h

theorem visitField_unknown (acc : PartialTransaction) (k : String) (v : Json)
    (hk : k ∉ ["id", "description", "amount", "transaction_type",
      "category", "account", "month", "date"]) :
    visitField acc k v = .ok acc := by
  simp only [List.mem_cons, List.not_mem_nil, or_false, not_or] at hk
  obtain ⟨h1, h2, h3, h4, h5, h6, h7, h8⟩ := hk
  unfold visitField
  rw [if_neg h1, if_neg h2, if_neg h3, if_neg h4, if_neg h5, if_neg h6,
    if_neg h7, if_neg h8]

theorem readFields_ignore (k : String) (v : Json)
    (hk : k ∉ ["id", "description", "amount", "transaction_type",
      "category", "account", "month", "date"])
    (l1 l2 : List (String × Json)) :
    ∀ acc, readFields (l1 ++ (k, v) :: l2) acc = readFields (l1 ++ l2) acc := by
  induction l1 with
  | nil =>
    intro acc
    show readFields ((k, v) :: l2) acc = readFields l2 acc
    rw [readFields, visitField_unknown acc k v hk]
  | cons p l1 ih =>
    intro acc
    obtain ⟨k', v'⟩ := p
    rw [List.cons_append, List.cons_append, readFields, readFields]
    cases hv : visitField acc k' v' with
    | error e => rfl
    | ok acc' => exact ih acc'

/-! ### The claims -/

/-- Claim C1: round-trip.  For every sequence of `Transaction` records
(duplicate ids and exact float amounts included), if `save_transactions`
on that sequence succeeds and a subsequent `load_transactions` succeeds,
the loaded sequence is equal in content and order to the one saved. -/
theorem c1_round_trip (w : World) (ts : List Transaction) (w1 w2 : World)
    (res : List Transaction)
    (hsave : save_transactions w ts = .ok w1)
    (hload : load_transactions w1 = .ok (res, w2)) : res = ts := by
  obtain ⟨d, happ, hc, hw, rfl⟩ := save_transactions_ok_elim w ts w1 hsave
  obtain ⟨d', happ', hc', hw1, hrest⟩ :=
    load_transactions_ok_elim _ res w2 hload
  have hd : d = d' := by
    have h3 : (savedWorld w d ts).appDataDir = some d := happ
    rw [happ'] at h3
    exact (Option.some.inj h3).symm
  subst hd
  have hfind : findFile (savedWorld w d ts).files (d ++ ["transactions.json"])
      = some (FileContent.jsonText
          { pretty := true, doc := Json.arr (ts.map encodeTransaction) }) :=
    findFile_setFile_self ..
  rcases hrest with ⟨hf, _⟩ | ⟨c, hf, hr, hs⟩
  · rw [hfind] at hf
    cases hf
  · rw [hfind] at hf
    have hc2 := Option.some.inj hf
    rw [← hc2] at hs
    have hs2 : decodeList (ts.map encodeTransaction) = .ok res := hs
    exact decodeList_encode_inv ts res hs2

/-- Witness for C1 at the spec's scenario example: saving `[tx1]` (amount
exactly `-4.50`) into a fresh world and loading back yields `[tx1]`. -/
theorem c1_round_trip_witness :
    save_transactions w0 [tx1] = .ok w0saved ∧
    load_transactions w0saved = .ok ([tx1], w0saved) ∧
    ([tx1] : List Transaction) = [tx1] :=
  ⟨rfl, rfl, c1_round_trip w0 [tx1] w0saved w0saved [tx1] rfl rfl⟩

/-- Claim C2: first-run behavior.  Whenever the storage path resolves
(host supplies the directory, creation succeeds) and no file exists at
it, `load_transactions` returns the empty collection as a successful
result, not an error. -/
theorem c2_first_run (w : World) (d : FsPath)
    (happ : w.appDataDir = some d) (hc : w.dirCreateFails = false)
    (hf : findFile w.files (d ++ ["transactions.json"]) = none) :
    load_transactions w = .ok ([], resolvedWorld w d) :=
  load_transactions_of_absent w d happ hc hf

/-- Witness for C2: loading from the fresh world `w0` (no file stored)
succeeds with the empty collection. -/
theorem c2_first_run_witness :
    load_transactions w0 = .ok ([], rw0) :=
  c2_first_run w0 ["data"] rfl rfl rfl

/-- Refutation of claim C3 as stated: for `B = [txNaN]` (a NaN amount),
both saves succeed, reading is possible, yet the subsequent load does
not return `B` — `serde_json` writes `null` for the non-finite amount
and the load then fails to parse `null` as an `f64`. -/
theorem c3_overwrite_counterexample :
    save_transactions w0 [tx1] = .ok w0saved ∧
    save_transactions w0saved [txNaN] = .ok wNaNsaved ∧
    w0.readFails = false ∧
    (load_transactions wNaNsaved).map Prod.fst ≠ .ok [txNaN] := by
  refine ⟨rfl, rfl, rfl, ?_⟩
  intro h
  rw [show (load_transactions wNaNsaved).map Prod.fst =
      .error (StoreError.deserialization
        "Failed to parse transactions: invalid type for field amount")
    from rfl] at h
  exact Except.noConfusion h

/-- Claim C3 (amended to sequences `B` whose amounts are all finite —
a non-finite amount is serialized as `null` and fails the next load):
after `save_transactions A` and then `save_transactions B` both succeed,
`load_transactions` returns exactly `B` (not a merge of `A` and `B`):
each successful save fully replaces the prior file content. -/
theorem c3_overwrite (w : World) (A B : List Transaction) (w1 w2 : World)
    (hfin : ∀ t ∈ B, t.amount.isFinite = true)
    (hr : w.readFails = false)
    (h1 : save_transactions w A = .ok w1)
    (h2 : save_transactions w1 B = .ok w2) :
    (load_transactions w2).map Prod.fst = .ok B := by
  obtain ⟨d, happ, hc, hw, rfl⟩ := save_transactions_ok_elim w A w1 h1
  obtain ⟨d', happ', hc', hw', rfl⟩ := save_transactions_ok_elim _ B w2 h2
  have hd : d = d' := by
    have h3 : (savedWorld w d A).appDataDir = some d := happ
    rw [happ'] at h3
    exact (Option.some.inj h3).symm
  subst hd
  rw [load_transactions_of_present (savedWorld (savedWorld w d A) d B) d
    (FileContent.jsonText
      { pretty := true, doc := Json.arr (B.map encodeTransaction) }) B
    happ hc (findFile_setFile_self ..) hr (from_str_encode true B hfin)]
  rfl

/-- Witness for C3: saving `[tx1]` then `[tx2]` into the fresh world and
loading yields exactly `[tx2]`. -/
theorem c3_overwrite_witness :
    save_transactions w0 [tx1] = .ok w0saved ∧
    save_transactions w0saved [tx2] = .ok wB ∧
    (load_transactions wB).map Prod.fst = .ok [tx2] :=
  ⟨rfl, rfl, c3_overwrite w0 [tx1] [tx2] w0saved wB (by decide) rfl rfl rfl⟩

/-- Refutation of claim C4 as stated: stored content whose sole record
is a positional array — not an object with the eight named fields, so
not "the expected record shape" of the spec — nevertheless loads
successfully, because the derived `Deserialize` also accepts structs
from positional JSON arrays via `visit_seq`. -/
theorem c4_malformed_counterexample :
    isObj positionalRecord = false ∧
    load_transactions wPositional =
      .ok ([tx1], resolvedWorld wPositional ["data"]) :=
  ⟨rfl, rfl⟩

/-- Claim C4 (amended: "does not match the expected record shape" must
be read as "is not deserializable as a record sequence" — the derived
deserializer also accepts positional eight-element arrays, so not every
non-object-shaped content fails).  Whenever the path resolves, the
stored file is readable but its content is not a valid encoding of any
record sequence (not valid JSON, missing required field, wrong field
type, duplicate field, bad positional shape), `load_transactions` fails
with a `DeserializationError` — it returns no partial or corrupted
records. -/
theorem c4_malformed (w : World) (d : FsPath) (c : FileContent)
    (happ : w.appDataDir = some d) (hc : w.dirCreateFails = false)
    (hf : findFile w.files (d ++ ["transactions.json"]) = some c)
    (hr : w.readFails = false)
    (hbad : ∀ ts : List Transaction, from_str c ≠ .ok ts) :
    isDeserializationFailure (load_transactions w) := by
  cases hs : from_str c with
  | ok ts => exact absurd hs (hbad ts)
  | error e =>
    rw [load_transactions_of_bad_content w d c e happ hc hf hr hs]
    trivial

/-- Witness for C4: a file holding the malformed text `"not json"` makes
`load_transactions` fail with a `DeserializationError`. -/
theorem c4_malformed_witness :
    isDeserializationFailure (load_transactions wMal) :=
  c4_malformed wMal ["data"] (FileContent.malformed "not json")
    rfl rfl rfl rfl (fun ts h => by simp [from_str] at h)

/-- Claim C5: for every world and every sequence of well-formed
`Transaction` values, `save_transactions` never fails with a
`SerializationError`: the serialization-failure branch is unreachable. -/
theorem c5_no_serialization_error (w : World) (ts : List Transaction)
    (m : String) :
    save_transactions w ts ≠ .error (StoreError.serialization m) := by
  intro h
  cases happ : w.appDataDir with
  | none =>
    simp [save_transactions, get_data_file_path, mapGetPathErr, happ] at h
  | some d =>
    cases hc : w.dirCreateFails with
    | true =>
      simp [save_transactions, get_data_file_path, create_dir_all,
        mapGetPathErr, happ, hc] at h
    | false =>
      cases hw : w.writeFails with
      | true =>
        simp [save_transactions, get_data_file_path, create_dir_all,
          serialize_transactions, to_string_pretty, fs_write,
          happ, hc, hw] at h
      | false =>
        rw [save_transactions_ok w ts d happ hc hw] at h
        exact Except.noConfusion h

/-- Witness for C5: in particular, saving from the fresh world is not a
serialization failure. -/
theorem c5_no_serialization_error_witness :
    save_transactions w0 [tx1] ≠ .error (StoreError.serialization
      "Failed to serialize transactions: boom") :=
  c5_no_serialization_error w0 [tx1] "Failed to serialize transactions: boom"

/-- Claim C6: path-resolution failure modes.  If the host cannot supply
an app data directory, both commands fail with a `PathResolutionError`;
if directory creation fails, both fail with a `DirectoryCreationError`;
in both cases the path-resolution error is propagated to the caller as a
failed result. -/
theorem c6_path_errors (w : World) (ts : List Transaction) :
    (w.appDataDir = none →
      save_transactions w ts = .error (StoreError.pathResolution
        "Failed to get data file path: Failed to get app data directory") ∧
      load_transactions w = .error (StoreError.pathResolution
        "Failed to get data file path: Failed to get app data directory")) ∧
    (∀ d, w.appDataDir = some d → w.dirCreateFails = true →
      save_transactions w ts = .error (StoreError.dirCreation
        "Failed to get data file path: Permission denied (os error 13)") ∧
      load_transactions w = .error (StoreError.dirCreation
        "Failed to get data file path: Permission denied (os error 13)")) := by
  constructor
  · intro h
    constructor <;>
      simp [save_transactions, load_transactions, get_data_file_path,
        mapGetPathErr, h]
  · intro d h hdc
    constructor <;>
      simp [save_transactions, load_transactions, get_data_file_path,
        create_dir_all, mapGetPathErr, h, hdc]

/-- Witness for C6: a host without a data directory makes both commands
fail with the path-resolution message; a failing directory creation makes
both fail with the directory-creation message. -/
theorem c6_path_errors_witness :
    save_transactions wNoDir [tx1] = .error (StoreError.pathResolution
      "Failed to get data file path: Failed to get app data directory") ∧
    load_transactions wNoDir = .error (StoreError.pathResolution
      "Failed to get data file path: Failed to get app data directory") ∧
    save_transactions wBadDir [tx1] = .error (StoreError.dirCreation
      "Failed to get data file path: Permission denied (os error 13)") ∧
    load_transactions wBadDir = .error (StoreError.dirCreation
      "Failed to get data file path: Permission denied (os error 13)") := by
  obtain ⟨h1, h2⟩ := (c6_path_errors wNoDir [tx1]).1 rfl
  obtain ⟨h3, h4⟩ := (c6_path_errors wBadDir [tx1]).2 ["data"] rfl rfl
  exact ⟨h1, h2, h3, h4⟩

/-- Claim C7: directory auto-creation.  When the host supplies the data
directory's path and creation and writing are possible,
`save_transactions` succeeds and every intermediate directory on the way
to the data directory exists afterwards — whether or not it existed
before. -/
theorem c7_dir_creation (w : World) (ts : List Transaction) (d : FsPath)
    (happ : w.appDataDir = some d) (hc : w.dirCreateFails = false)
    (hw : w.writeFails = false) :
    save_transactions w ts = .ok (savedWorld w d ts) ∧
    ∀ pre ∈ d.inits, pre ∈ (savedWorld w d ts).dirs := by
  refine ⟨save_transactions_ok w ts d happ hc hw, ?_⟩
  intro pre hpre
  show pre ∈ List.foldl insertDir w.dirs d.inits
  exact mem_foldl_insertDir_of_mem _ _ _ hpre

/-- Witness for C7: in the fresh world `w0` the data directory does not
yet exist (`w0.dirs = []`), saving succeeds, and the directory exists
afterwards. -/
theorem c7_dir_creation_witness :
    w0.dirs = [] ∧
    save_transactions w0 [tx1] = .ok w0saved ∧
    ["data"] ∈ w0saved.dirs := by
  obtain ⟨h1, h2⟩ := c7_dir_creation w0 [tx1] ["data"] rfl rfl rfl
  exact ⟨rfl, h1, h2 ["data"] (by decide)⟩

/-- Claim C8: wire format.  A successful `save_transactions` stores, at
the path `transactions.json` inside the host-resolved data directory,
the pretty-printed serialization of the ordered record sequence — an
array of objects each having exactly the eight fields by name, with no
header, version tag or checksum — and touches no other file. -/
theorem c8_wire_format (w : World) (ts : List Transaction) (w' : World)
    (h : save_transactions w ts = .ok w') :
    ∃ d, w.appDataDir = some d ∧
      findFile w'.files (d ++ ["transactions.json"]) =
        some (FileContent.jsonText
          { pretty := true, doc := Json.arr (ts.map encodeTransaction) }) ∧
      (∀ t ∈ ts, fieldNames (encodeTransaction t) =
        ["id", "description", "amount", "transaction_type", "category",
         "account", "month", "date"]) ∧
      (∀ q, q ≠ d ++ ["transactions.json"] →
        findFile w'.files q = findFile w.files q) := by
  obtain ⟨d, happ, hc, hw, rfl⟩ := save_transactions_ok_elim w ts w' h
  refine ⟨d, happ, findFile_setFile_self .., fun t _ => rfl, fun q hq => ?_⟩
  exact findFile_setFile_ne w.files _ q _ hq

/-- Witness for C8: after saving `[tx1]` from the fresh world, the file
`data/transactions.json` holds the pretty-printed array of the one
record, whose object has exactly the eight field names. -/
theorem c8_wire_format_witness :
    findFile w0saved.files ["data", "transactions.json"] =
      some (FileContent.jsonText
        { pretty := true, doc := Json.arr [encodeTransaction tx1] }) ∧
    fieldNames (encodeTransaction tx1) =
      ["id", "description", "amount", "transaction_type", "category",
       "account", "month", "date"] := by
  obtain ⟨d, happ, hfind, hfields, _⟩ := c8_wire_format w0 [tx1] w0saved rfl
  have hd : ["data"] = d := Option.some.inj happ
  subst hd
  exact ⟨hfind, hfields tx1 (List.mem_singleton.mpr rfl)⟩

/-- Claim C9: idempotence.  A successful `load_transactions` leaves the
stored files untouched and repeating it yields the same result and
state; saving the same sequence twice produces the same final file
content as saving it once. -/
theorem c9_idempotence (w : World) (ts res : List Transaction)
    (w1 w2 : World) :
    (load_transactions w = .ok (res, w1) →
      load_transactions w1 = .ok (res, w1) ∧ w1.files = w.files) ∧
    (save_transactions w ts = .ok w1 → save_transactions w1 ts = .ok w2 →
      w2.files = w1.files) := by
  constructor
  · intro h
    obtain ⟨d, happ, hc, rfl, hrest⟩ := load_transactions_ok_elim w res w1 h
    refine ⟨?_, rfl⟩
    rcases hrest with ⟨hf, rfl⟩ | ⟨c, hf, hr, hs⟩
    · have h2 := load_transactions_of_absent (resolvedWorld w d) d happ hc hf
      rw [resolvedWorld_idem] at h2
      exact h2
    · have h2 :=
        load_transactions_of_present (resolvedWorld w d) d c res happ hc hf hr hs
      rw [resolvedWorld_idem] at h2
      exact h2
  · intro h1 h2
    obtain ⟨d, happ, hc, hw, rfl⟩ := save_transactions_ok_elim w ts w1 h1
    obtain ⟨d', happ', hc', hw', rfl⟩ := save_transactions_ok_elim _ ts w2 h2
    have hd : d = d' := by
      have h3 : (savedWorld w d ts).appDataDir = some d := happ
      rw [happ'] at h3
      exact (Option.some.inj h3).symm
    subst hd
    exact setFile_setFile w.files (d ++ ["transactions.json"]) _ _

/-- Witness for C9: repeating a load of the fresh world changes nothing,
and saving `[tx1]` twice leaves the same final file content as saving it
once. -/
theorem c9_idempotence_witness :
    (load_transactions rw0 = .ok ([], rw0) ∧ rw0.files = w0.files) ∧
    w0savedTwice.files = w0saved.files := by
  refine ⟨(c9_idempotence w0 [] [] rw0 rw0).1 rfl, ?_⟩
  exact (c9_idempotence w0 [tx1] [] w0saved w0savedTwice).2 rfl rfl

/-- Refutation of claim C10 as stated: an object in which every required
field is present with a well-typed value (so nothing is missing and
nothing is wrongly typed under first-occurrence lookup) but the field
`id` appears twice fails deserialization with a `duplicate field` error,
contradicting "only missing required fields or wrong field types make
deserialization fail". -/
theorem c10_unknown_fields_counterexample :
    jsonLookup dupFieldsObj "id" = some (Json.str "1") ∧
    jsonLookup dupFieldsObj "description" = some (Json.str "Coffee") ∧
    jsonLookup dupFieldsObj "amount" = some (Json.num negFourPointFive) ∧
    jsonLookup dupFieldsObj "transaction_type" = some (Json.str "expense") ∧
    jsonLookup dupFieldsObj "category" = some (Json.str "Food") ∧
    jsonLookup dupFieldsObj "account" = some (Json.str "Checking") ∧
    jsonLookup dupFieldsObj "month" = some (Json.str "2024-01") ∧
    jsonLookup dupFieldsObj "date" = some (Json.str "2024-01-15") ∧
    from_str (FileContent.jsonText
      { pretty := true, doc := Json.arr [Json.obj dupFieldsObj] }) =
      .error "duplicate field id" :=
  ⟨rfl, rfl, rfl, rfl, rfl, rfl, rfl, rfl, rfl⟩

/-- Claim C10 (amended: a duplicated known field also fails, with a
`duplicate field` error, so failures are not limited to missing or
wrongly-typed fields).  Fields with unknown names are silently ignored
rather than failing deserialization: inserting an entry with an unknown
key anywhere into a stored object never changes the result of decoding
it — in particular an object carrying the eight required fields once
each plus unknown extras is accepted. -/
theorem c10_unknown_fields (l1 l2 : List (String × Json)) (k : String)
    (v : Json)
    (hk : k ∉ ["id", "description", "amount", "transaction_type",
      "category", "account", "month", "date"]) :
    decodeTransaction (Json.obj (l1 ++ (k, v) :: l2)) =
      decodeTransaction (Json.obj (l1 ++ l2)) := by
  show readFields (l1 ++ (k, v) :: l2) {} = readFields (l1 ++ l2) {}
  exact readFields_ignore k v hk l1 l2 {}

/-- Witness for C10: an object with the eight required fields plus the
unknown fields `note` and `tags` deserializes to `tx1`, ignoring the
extras: stripping the two extras one at a time does not change the
result, which is acceptance. -/
theorem c10_unknown_fields_witness :
    decodeTransaction (Json.obj extraFieldsObj) = .ok tx1 := by
  have h1 := c10_unknown_fields [("id", Json.str "1")]
    [ ("description", Json.str "Coffee"),
      ("amount", Json.num negFourPointFive),
      ("transaction_type", Json.str "expense"),
      ("category", Json.str "Food"),
      ("account", Json.str "Checking"),
      ("month", Json.str "2024-01"),
      ("date", Json.str "2024-01-15"),
      ("tags", Json.arr []) ]
    "note" (Json.str "imported") (by decide)
  have h2 := c10_unknown_fields
    [ ("id", Json.str "1"),
      ("description", Json.str "Coffee"),
      ("amount", Json.num negFourPointFive),
      ("transaction_type", Json.str "expense"),
      ("category", Json.str "Food"),
      ("account", Json.str "Checking"),
      ("month", Json.str "2024-01"),
      ("date", Json.str "2024-01-15") ]
    [] "tags" (Json.arr []) (by decide)
  exact h1.trans (h2.trans rfl)

end FamilyLedger
